import Mathlib

/-!
# Verification of the dkafka event-derivation and checkpointed-delivery pipeline

A shallow embedding, in Lean 4, of the core of the `dkafka` Go repository:
the generic expression-driven adapter (`adapter.adapt`), the canonical event
wire format, the two checkpoint-store backends (`localFileCheckpointer` and
`kafkaCheckpointer`), and the delivery pipeline loop of `App.Run`.

Machine integers are modelled as `Nat` with explicit reduction modulo `2^32`
(resp. `2^64`) where the Go code relies on fixed-width arithmetic (the SHA-256
hash used for event ids).  Fallible Go functions returning `(T, error)` are
modelled with `Except` / `Option`.  External collaborators (the CEL expression
programs, the row decoder, the correlation extractor) are function-typed
values, exactly as they are function-typed fields or injected dependencies in
the Go code.
-/

namespace Dkafka

/-! ## Bytes, UTF-8, SHA-256 and base64

`hashString` in the Go source is
`base64.StdEncoding.EncodeToString(sha256.Sum(data))` over the UTF-8 bytes of
the input string.  We embed the full algorithms over `Nat` bytes/words. -/

/-- 32-bit truncation. -/
def m32 (x : Nat) : Nat := x % 4294967296

/-- 32-bit addition (wrapping), as Go's `uint32` addition. -/
def add32 (a b : Nat) : Nat := m32 (a + b)

/-- Right-rotation of a 32-bit word by `n` places. -/
def rotr32 (x n : Nat) : Nat := m32 ((x >>> n) ||| (x <<< (32 - n)))

/-- UTF-8 encoding of one unicode code point, as a list of byte values. -/
def utf8Char (c : Nat) : List Nat :=
  if c < 0x80 then [c]
  else if c < 0x800 then [0xC0 ||| (c >>> 6), 0x80 ||| (c &&& 0x3F)]
  else if c < 0x10000 then
    [0xE0 ||| (c >>> 12), 0x80 ||| ((c >>> 6) &&& 0x3F), 0x80 ||| (c &&& 0x3F)]
  else
    [0xF0 ||| (c >>> 18), 0x80 ||| ((c >>> 12) &&& 0x3F),
     0x80 ||| ((c >>> 6) &&& 0x3F), 0x80 ||| (c &&& 0x3F)]

/-- The UTF-8 bytes of a string: Go's `[]byte(s)`. -/
def strBytes (s : String) : List Nat :=
  (s.data.map (fun c => utf8Char c.toNat)).flatten

/-- The 64 SHA-256 round constants K₀…K₆₃ (FIPS 180-4), in decimal. -/
def shaK : List Nat :=
  [1116352408, 1899447441, 3049323471, 3921009573,
   961987163, 1508970993, 2453635748, 2870763221,
   3624381080, 310598401, 607225278, 1426881987,
   1925078388, 2162078206, 2614888103, 3248222580,
   3835390401, 4022224774, 264347078, 604807628,
   770255983, 1249150122, 1555081692, 1996064986,
   2554220882, 2821834349, 2952996808, 3210313671,
   3336571891, 3584528711, 113926993, 338241895,
   666307205, 773529912, 1294757372, 1396182291,
   1695183700, 1986661051, 2177026350, 2456956037,
   2730485921, 2820302411, 3259730800, 3345764771,
   3516065817, 3600352804, 4094571909, 275423344,
   430227734, 506948616, 659060556, 883997877,
   958139571, 1322822218, 1537002063, 1747873779,
   1955562222, 2024104815, 2227730452, 2361852424,
   2428436474, 2756734187, 3204031479, 3329325298]

/-- The eight SHA-256 initial hash values H₀…H₇, in decimal. -/
def shaH0 : List Nat :=
  [1779033703, 3144134277, 1013904242, 2773480762,
   1359893119, 2600822924, 528734635, 1541459225]

/-- SHA-256 message padding: append `0x80`, zeros, then the 64-bit big-endian
bit length, reaching a multiple of 64 bytes. -/
def shaPad (msg : List Nat) : List Nat :=
  let len := msg.length
  let zeros := (64 - ((len + 9) % 64)) % 64
  let bitLen := (len * 8) % 18446744073709551616
  msg ++ [0x80] ++ List.replicate zeros 0 ++
    [ (bitLen >>> 56) &&& 0xFF, (bitLen >>> 48) &&& 0xFF,
      (bitLen >>> 40) &&& 0xFF, (bitLen >>> 32) &&& 0xFF,
      (bitLen >>> 24) &&& 0xFF, (bitLen >>> 16) &&& 0xFF,
      (bitLen >>> 8) &&& 0xFF, bitLen &&& 0xFF ]

/-- Group a flat byte list into big-endian 32-bit words. -/
def bytesToWords : List Nat → List Nat
  | b0 :: b1 :: b2 :: b3 :: rest =>
      ((b0 <<< 24) ||| (b1 <<< 16) ||| (b2 <<< 8) ||| b3) :: bytesToWords rest
  | _ => []

/-- Split a word list into 16-word blocks (the padded message is always a
whole number of 16-word blocks; a ragged tail is dropped). -/
def toBlocks : List Nat → List (List Nat)
  | w0 :: w1 :: w2 :: w3 :: w4 :: w5 :: w6 :: w7 ::
    w8 :: w9 :: w10 :: w11 :: w12 :: w13 :: w14 :: w15 :: rest =>
      [w0, w1, w2, w3, w4, w5, w6, w7, w8, w9, w10, w11, w12, w13, w14, w15]
        :: toBlocks rest
  | _ => []

/-- Extend the 16-word block to the 64-word message schedule. -/
def shaSchedule (block : List Nat) : Nat → List Nat
  | 0 => block
  | n + 1 =>
    let w := shaSchedule block n
    let get := fun i => w.getD i 0
    let i := w.length
    let s0 := rotr32 (get (i - 15)) 7 ^^^ rotr32 (get (i - 15)) 18 ^^^ (get (i - 15) >>> 3)
    let s1 := rotr32 (get (i - 2)) 17 ^^^ rotr32 (get (i - 2)) 19 ^^^ (get (i - 2) >>> 10)
    w ++ [m32 (get (i - 16) + s0 + get (i - 7) + s1)]

/-- One round of the SHA-256 compression function. -/
def shaRound (st : List Nat) (kw : Nat × Nat) : List Nat :=
  match st with
  | [a, b, c, d, e, f, g, h] =>
    let S1 := rotr32 e 6 ^^^ rotr32 e 11 ^^^ rotr32 e 25
    let chv := (e &&& f) ^^^ ((e ^^^ 0xFFFFFFFF) &&& g)
    let t1 := m32 (h + S1 + chv + kw.1 + kw.2)
    let S0 := rotr32 a 2 ^^^ rotr32 a 13 ^^^ rotr32 a 22
    let majv := (a &&& b) ^^^ (a &&& c) ^^^ (b &&& c)
    let t2 := m32 (S0 + majv)
    [m32 (t1 + t2), a, b, c, add32 d t1, e, f, g]
  | other => other

/-- Process one 512-bit block, updating the running hash state. -/
def shaBlockStep (h : List Nat) (block : List Nat) : List Nat :=
  let w := shaSchedule block 48
  let st := (shaK.zip w).foldl shaRound h
  (h.zip st).map (fun p => add32 p.1 p.2)

/-- SHA-256 digest (32 bytes) of a byte list. -/
def sha256 (msg : List Nat) : List Nat :=
  let hFinal := (toBlocks (bytesToWords (shaPad msg))).foldl shaBlockStep shaH0
  (hFinal.map (fun w =>
    [(w >>> 24) &&& 0xFF, (w >>> 16) &&& 0xFF, (w >>> 8) &&& 0xFF, w &&& 0xFF])).flatten

/-- The standard base64 alphabet. -/
def base64Alphabet : String :=
  "ABCDEFGHIJKLMNOPQRSTUVWXYZabcdefghijklmnopqrstuvwxyz0123456789+/"

/-- Index into the base64 alphabet. -/
def base64Char (i : Nat) : Char := base64Alphabet.data.getD i 'A'

/-- Standard base64 encoding (RFC 4648) of a byte list, with `=` padding —
Go's `base64.StdEncoding.EncodeToString`. -/
def base64Encode : List Nat → String
  | [] => ""
  | [b0] =>
      String.mk [base64Char (b0 >>> 2), base64Char ((b0 &&& 0x3) <<< 4), '=', '=']
  | [b0, b1] =>
      String.mk [base64Char (b0 >>> 2), base64Char (((b0 &&& 0x3) <<< 4) ||| (b1 >>> 4)),
                 base64Char ((b1 &&& 0xF) <<< 2), '=']
  | b0 :: b1 :: b2 :: rest =>
      String.mk [base64Char (b0 >>> 2), base64Char (((b0 &&& 0x3) <<< 4) ||| (b1 >>> 4)),
                 base64Char (((b1 &&& 0xF) <<< 2) ||| (b2 >>> 6)), base64Char (b2 &&& 0x3F)]
        ++ base64Encode rest

/-- `hashString` (adapter source): base64 of the SHA-256 digest of the UTF-8
bytes of the input.  The Go function returns the bytes of that base64 text;
we keep it as the string. -/
def hashString (data : String) : String :=
  base64Encode (sha256 (strBytes data))

/-! ## Go string helpers: `strings.TrimPrefix` + `strings.Title` -/

/-- Go's `unicode`-based word-separator test, restricted to the ASCII range
actually exercised by the step/status strings: ASCII alphanumerics and `_`
are not separators, everything else is. -/
def goIsSeparator (c : Char) : Bool :=
  !(('0' ≤ c && c ≤ '9') || ('a' ≤ c && c ≤ 'z') || ('A' ≤ c && c ≤ 'Z') || c == '_')

/-- Go's `strings.Title`: upper-case every letter that follows a separator
(or starts the string). -/
def goTitle (s : String) : String :=
  String.mk
    ((s.data.foldl
      (fun (acc : List Char × Char) c =>
        (acc.1 ++ [if goIsSeparator acc.2 then c.toUpper else c], c))
      ([], ' ')).1)

/-- `sanitizeStep`: `strings.Title(strings.TrimPrefix(step, "STEP_"))`. -/
def sanitizeStep (step : String) : String :=
  goTitle (if step.startsWith "STEP_" then step.drop 5 else step)

/-- `sanitizeStatus`: `strings.Title(strings.TrimPrefix(status, "TRANSACTIONSTATUS_"))`. -/
def sanitizeStatus (status : String) : String :=
  goTitle (if status.startsWith "TRANSACTIONSTATUS_" then status.drop 18 else status)

/-! ## A small JSON value type

`encoding/json` output is modelled as a JSON tree; the Go code serializes the
tree to bytes, which adds nothing to the claims, so messages carry the tree. -/

/-- JSON values.  `raw` stands for a `json.RawMessage` spliced verbatim. -/
inductive Json where
  | null : Json
  | bool (b : Bool) : Json
  | num (n : Nat) : Json
  | str (s : String) : Json
  | raw (s : String) : Json
  | arr (elems : List Json) : Json
  | obj (fields : List (String × Json)) : Json

/-- The field names of a JSON object (and `[]` on any other value). -/
def Json.objFields : Json → List String
  | .obj fields => fields.map Prod.fst
  | _ => []

/-! ## The block model (`pbcodec` protobuf types, as used by the adapter) -/

/-- `pbcodec.PermissionLevel`; `Authorization()` renders `actor@permission`. -/
structure PermissionLevel where
  Actor : String
  Permission : String
deriving DecidableEq

/-- External `pbcodec` method: `auth.Authorization()`. -/
def PermissionLevel.Authorization (a : PermissionLevel) : String :=
  a.Actor ++ "@" ++ a.Permission

/-- `pbcodec.Action`: the action payload carried by a trace. -/
structure Action where
  Account : String
  Name : String
  JsonData : String
  Authorization : List PermissionLevel
deriving DecidableEq

/-- `pbcodec.ActionReceipt`; only `GlobalSequence` is read by the adapter. -/
structure ActionReceipt where
  GlobalSequence : Nat
deriving DecidableEq

/-- `pbcodec.DBOp`: one raw row mutation; `ActionIndex` ties it to the action
trace with that execution index. -/
structure DBOp where
  ActionIndex : Nat
  TableName : String
  Scope : String
  Operation : String
  OldData : String
  NewData : String
deriving DecidableEq

/-- `decodedDBOp` (abidecoder): a `DBOp` plus the optional decoded old/new
rows produced by the external row decoder. -/
structure decodedDBOp where
  op : DBOp
  NewJSON : Option String
  OldJSON : Option String
deriving DecidableEq

/-- `pbcodec.ActionTrace` (Go nil-able `Receipt` becomes an `Option`). -/
structure ActionTrace where
  Receiver : String
  Action : Action
  Receipt : Option ActionReceipt
  ExecutionIndex : Nat
  FilteringMatched : Bool
deriving DecidableEq

/-- External `pbcodec` method `act.Account()`. -/
def ActionTrace.Account (a : ActionTrace) : String := a.Action.Account

/-- External `pbcodec` method `act.Name()`. -/
def ActionTrace.Name (a : ActionTrace) : String := a.Action.Name

/-- `pbcodec.TransactionReceiptHeader`; `Status` holds the proto enum name
that `trx.Receipt.Status.String()` yields (e.g. `TRANSACTIONSTATUS_EXECUTED`). -/
structure TransactionReceipt where
  Status : String
deriving DecidableEq

/-- `pbcodec.TransactionTrace`.  `hasBeenReverted` carries the result of the
external `HasBeenReverted()` method as an input attribute. -/
structure TransactionTrace where
  Id : String
  Receipt : TransactionReceipt
  ActionTraces : List ActionTrace
  DBOps : List DBOp
  hasBeenReverted : Bool
deriving DecidableEq

/-- External `pbcodec` method `trx.HasBeenReverted()`. -/
def TransactionTrace.HasBeenReverted (t : TransactionTrace) : Bool :=
  t.hasBeenReverted

/-- External `pbcodec` method `trx.DBOpsForAction(idx)`: the transaction's
DB operations whose `ActionIndex` equals `idx`. -/
def TransactionTrace.DBOpsForAction (t : TransactionTrace) (idx : Nat) : List DBOp :=
  t.DBOps.filter (fun op => op.ActionIndex == idx)

/-- `pbcodec.Block`.  `transactionTraces` is the list that the external
method `blk.TransactionTraces()` yields; `MustTimeFormatted` is the already
formatted block timestamp (`blk.MustTime().Format(...)`, external time
formatting abstracted to its result). -/
structure Block where
  Number : Nat
  Id : String
  transactionTraces : List TransactionTrace
  MustTimeFormatted : String
deriving DecidableEq

/-- External `pbcodec` method `blk.TransactionTraces()`. -/
def Block.TransactionTraces (b : Block) : List TransactionTrace :=
  b.transactionTraces

/-- Modelled from the spec: `correlation.go` (the `Correlation` type and
`getCorrelation`) is not under `src/`; per the spec, correlation is "an
application-defined grouping id derived from the transaction's own actions". -/
structure Correlation where
  Id : String
deriving DecidableEq

/-- JSON form of a correlation record. -/
def Correlation.toJson (c : Correlation) : Json :=
  .obj [("id", .str c.Id)]

/-! ## The canonical event record

Modelled from the spec: the `event` / `ActionInfo` struct declarations that
`adapter.adapt` populates (with `Executed`, `Correlation` and `DBOps` fields)
are not under `src/`; `src/unnamed/part_001` carries an older snapshot of
`event` lacking those three fields, which cannot compile with the adapter.
Field values follow the composite literal in `adapter.adapt`; JSON names for
the shared fields follow the older struct's tags (`block_num`, `block_id`,
`status`, `block_step`, `trx_id`, `act_info`, `account`, `receiver`,
`action`, `global_seq`, `authorizations`, `json_data`), and the three
missing names follow the spec's wire-format section (`executed`,
`correlation`, and `db_ops` for the decoded row mutations). -/
structure ActionInfo where
  Account : String
  Receiver : String
  Action : String
  GlobalSequence : Nat
  Authorization : List String
  DBOps : List decodedDBOp
  JSONData : Option String

/-- The canonical output event (see the comment on `ActionInfo`). -/
structure event where
  BlockNum : Nat
  BlockID : String
  Status : String
  Executed : Bool
  Step : String
  Correlation : Option Correlation
  TransactionID : String
  ActionInfo : ActionInfo

/-- JSON form of one decoded row mutation. -/
def decodedDBOp.toJson (d : decodedDBOp) : Json :=
  .obj [("action_index", .num d.op.ActionIndex),
        ("table_name", .str d.op.TableName),
        ("scope", .str d.op.Scope),
        ("operation", .str d.op.Operation),
        ("old_json", match d.OldJSON with | some s => .raw s | none => .null),
        ("new_json", match d.NewJSON with | some s => .raw s | none => .null)]

/-- JSON form of the nested action-info record. -/
def ActionInfo.toJson (a : ActionInfo) : Json :=
  .obj [("account", .str a.Account),
        ("receiver", .str a.Receiver),
        ("action", .str a.Action),
        ("global_seq", .num a.GlobalSequence),
        ("authorizations", .arr (a.Authorization.map Json.str)),
        ("db_ops", .arr (a.DBOps.map decodedDBOp.toJson)),
        ("json_data", match a.JSONData with | some s => .raw s | none => .null)]

/-- JSON form of the canonical event: what `eosioAction.JSON()` marshals. -/
def event.toJson (e : event) : Json :=
  .obj [("block_num", .num e.BlockNum),
        ("block_id", .str e.BlockID),
        ("status", .str e.Status),
        ("executed", .bool e.Executed),
        ("block_step", .str e.Step),
        ("correlation", match e.Correlation with
                        | some c => c.toJson
                        | none => .null),
        ("trx_id", .str e.TransactionID),
        ("act_info", e.ActionInfo.toJson)]

/-- `event.JSON()`: the serialized payload.  Go renders the tree to bytes;
the rendering step adds nothing to the claims, so the tree itself stands for
the payload. -/
def event.JSON (e : event) : Json := e.toJson

/-! ## Activation and CEL expression programs

`cel.Program` values are opaque compiled expressions evaluated against an
activation; they are modelled as functions from the activation to
`Except`-wrapped results, matching `evalString` / `evalStringArray` in the
source (which unify evaluation and native-conversion errors). -/

/-- Modelled from the spec: `NewActivation` (activation construction,
absent from `src/`) builds "a read-only composite view exposing step,
transaction, action, decoded row mutations"; it is the value bundle handed
to the expression engine. -/
structure Activation where
  step : String
  trxTrace : TransactionTrace
  actTrace : ActionTrace
  dbOps : List decodedDBOp

/-- Modelled from the spec: `NewActivation(step, trx, act, decodedDBOps)`;
construction of the read-only view itself cannot fail in the model. -/
def NewActivation (step : String) (trx : TransactionTrace) (act : ActionTrace)
    (dbOps : List decodedDBOp) : Except String Activation :=
  .ok { step := step, trxTrace := trx, actTrace := act, dbOps := dbOps }

/-- A compiled CEL program evaluated to a string. -/
def CelProgString : Type := Activation → Except String String

/-- A compiled CEL program evaluated to a string array. -/
def CelProgStringArray : Type := Activation → Except String (List String)

/-- `evalString`: run a string-valued program on an activation. -/
def evalString (prog : CelProgString) (activation : Activation) : Except String String :=
  prog activation

/-- `evalStringArray`: run a string-array-valued program on an activation. -/
def evalStringArray (prog : CelProgStringArray) (activation : Activation) :
    Except String (List String) :=
  prog activation

/-- An `extension`: a named auxiliary CEL program. -/
structure extension where
  name : String
  expr : String
  prog : CelProgString

/-! ## Kafka messages -/

/-- One Kafka header. -/
structure KafkaHeader where
  Key : String
  Value : String
deriving DecidableEq

/-- A produced Kafka message (topic partition is always `PartitionAny`, so
only the topic is kept). -/
structure KafkaMessage where
  Key : String
  Headers : List KafkaHeader
  Value : Json
  Topic : String

/-- The dedup keys of an adapter result: the keys of the messages it emits. -/
def emittedKeys : Except String (Option KafkaMessage) → List String
  | .ok (some msg) => [msg.Key]
  | _ => []

/-! ## The generic adapter (`adapter` and `adapter.adapt`, src/unnamed/part_000)

`saveBlock` (a pure side-effect hook) and the 1-in-100 log lines are not
modelled; `decodeDBOps` is the function-typed row-decoder field, returning
Go's `(decodedDBOps, err)` pair; `getCorrelation` is the package-level
correlation extractor, a function here because `correlation.go` is not under
`src/`. -/
structure adapter where
  topic : String
  decodeDBOps : List DBOp → Nat → List decodedDBOp × Option String
  failOnUndecodableDBOP : Bool
  eventTypeProg : CelProgString
  eventKeyProg : CelProgStringArray
  extensions : List extension
  headers : List KafkaHeader
  getCorrelation : List ActionTrace → Except String (Option Correlation)

/-- Insert-or-overwrite into the `extensionsKV` association map
(`extensionsKV[ext.name] = val`). -/
def mapSet (kv : List (String × String)) (k v : String) : List (String × String) :=
  if kv.any (fun p => p.1 == k) then kv.map (fun p => if p.1 == k then (k, v) else p)
  else kv ++ [(k, v)]

/-- The `for _, ext := range m.extensions` loop: evaluate every extension
program, collecting `name ↦ value` (map iteration order is fixed to
insertion order in the model). -/
def evalExtensions (exts : List extension) (activation : Activation) :
    Except String (List (String × String)) :=
  exts.foldlM
    (fun kv ext =>
      match evalString ext.prog activation with
      | .error e => .error ("program: " ++ e)
      | .ok val => .ok (mapSet kv ext.name val))
    []

/-- The `for _, eventKey := range eventKeys` loop with its `dedupeMap`:
skip a key already seen, otherwise build the message — and, as the source
stands, `return msg, nil` out of `adapt` at the first unseen key. -/
def keyLoop (mk : String → KafkaMessage) : List String → List String → Option KafkaMessage
  | [], _ => none
  | k :: rest, seen =>
    if seen.contains k then keyLoop mk rest seen
    else some (mk k)

/-- The continuation of the action-loop body after the row-decoding policy:
build the activation and the event record, evaluate the event-type,
extension and event-key programs, then run the dedupe key loop
(`decodedDBOps` is whatever the row decoder returned, decoded or not). -/
def adapter.processDecoded (m : adapter) (blk : Block) (rawStep step status : String)
    (trx : TransactionTrace) (correlation : Option Correlation) (act : ActionTrace)
    (decodedDBOps : List decodedDBOp) : Except String (Option KafkaMessage) :=
  let jsonData : Option String :=
    if act.Action.JsonData ≠ "" then some act.Action.JsonData else none
  let authorizations := act.Action.Authorization.map PermissionLevel.Authorization
  let globalSeq : Nat :=
    match act.Receipt with
    | some r => r.GlobalSequence
    | none => 0
  match NewActivation step trx act decodedDBOps with
  | .error e => .error e
  | .ok activation =>
    let eosioAction : event :=
      { BlockNum := blk.Number
        BlockID := blk.Id
        Status := status
        Executed := !trx.HasBeenReverted
        Step := step
        Correlation := correlation
        TransactionID := trx.Id
        ActionInfo :=
          { Account := act.Account
            Receiver := act.Receiver
            Action := act.Name
            JSONData := jsonData
            DBOps := decodedDBOps
            Authorization := authorizations
            GlobalSequence := globalSeq } }
    match evalString m.eventTypeProg activation with
    | .error e => .error ("error eventtype eval: " ++ e)
    | .ok eventType =>
      match evalExtensions m.extensions activation with
      | .error e => .error e
      | .ok extensionsKV =>
        match evalStringArray m.eventKeyProg activation with
        | .error e => .error ("event keyeval: " ++ e)
        | .ok eventKeys =>
          .ok (keyLoop
            (fun eventKey =>
              { Key := eventKey
                Headers := m.headers ++
                  [ { Key := "ce_id"
                      Value := hashString (blk.Id ++ trx.Id ++
                        toString act.ExecutionIndex ++ rawStep ++ eventKey) },
                    { Key := "ce_type", Value := eventType },
                    { Key := "ce_time", Value := blk.MustTimeFormatted },
                    { Key := "ce_blkstep", Value := step } ] ++
                  extensionsKV.map (fun p => { Key := p.1, Value := p.2 })
                Value := eosioAction.JSON
                Topic := m.topic })
            eventKeys [])

/-- The body of the action loop for one matched action trace: decode the
action's DB operations, apply the strict/lenient policy, and continue with
`processDecoded` on whatever the decoder returned. -/
def adapter.processAction (m : adapter) (blk : Block) (rawStep step status : String)
    (trx : TransactionTrace) (correlation : Option Correlation) (act : ActionTrace) :
    Except String (Option KafkaMessage) :=
  let dec := m.decodeDBOps (trx.DBOpsForAction act.ExecutionIndex) blk.Number
  match dec.2 with
  | some e =>
    if m.failOnUndecodableDBOP then .error e
    else m.processDecoded blk rawStep step status trx correlation act dec.1
  | none => m.processDecoded blk rawStep step status trx correlation act dec.1

/-- The `for _, act := range trx.ActionTraces` loop: unmatched actions are
skipped; a produced message is returned immediately (as in the source). -/
def adapter.actionsLoop (m : adapter) (blk : Block) (rawStep step status : String)
    (trx : TransactionTrace) (correlation : Option Correlation) :
    List ActionTrace → Except String (Option KafkaMessage)
  | [] => .ok none
  | act :: rest =>
    if !act.FilteringMatched then
      m.actionsLoop blk rawStep step status trx correlation rest
    else
      match m.processAction blk rawStep step status trx correlation act with
      | .error e => .error e
      | .ok (some msg) => .ok (some msg)
      | .ok none => m.actionsLoop blk rawStep step status trx correlation rest

/-- The `for _, trx := range blk.TransactionTraces()` loop. -/
def adapter.trxLoop (m : adapter) (blk : Block) (rawStep step : String) :
    List TransactionTrace → Except String (Option KafkaMessage)
  | [] => .ok none
  | trx :: rest =>
    let status := sanitizeStatus trx.Receipt.Status
    match m.getCorrelation trx.ActionTraces with
    | .error e => .error e
    | .ok correlation =>
      match m.actionsLoop blk rawStep step status trx correlation trx.ActionTraces with
      | .error e => .error e
      | .ok (some msg) => .ok (some msg)
      | .ok none => m.trxLoop blk rawStep step rest

/-- `adapter.adapt(blk, rawStep)`: returns the first message produced by the
nested loops, an error, or nothing. -/
def adapter.adapt (m : adapter) (blk : Block) (rawStep : String) :
    Except String (Option KafkaMessage) :=
  let step := sanitizeStep rawStep
  m.trxLoop blk rawStep step blk.TransactionTraces

/-! ## Checkpoint stores (`src/checkpoint.go`) -/

/-- Checkpointer errors: the distinguished `NoCursorErr` sentinel versus a
generic error. -/
inductive CpErr where
  | noCursor : CpErr
  | generic (msg : String) : CpErr
deriving DecidableEq

/-- `var NoCursorErr = errors.New("no cursor exists")`. -/
def NoCursorErr : CpErr := .noCursor

/-- The local filesystem, as contents by file name (`none` = no such file). -/
def FileSystem : Type := String → Option String

/-- `localFileCheckpointer`. -/
structure localFileCheckpointer where
  filename : String

/-- `localFileCheckpointer.Save`: `ioutil.WriteFile(c.filename, cursor, 0644)`
(modelled as always succeeding). -/
def localFileCheckpointer.Save (c : localFileCheckpointer) (fs : FileSystem)
    (cursor : String) : FileSystem :=
  fun name => if name = c.filename then some cursor else fs name

/-- `localFileCheckpointer.Load`: read the file; a missing file is the
distinguished `NoCursorErr`. -/
def localFileCheckpointer.Load (c : localFileCheckpointer) (fs : FileSystem) :
    Except CpErr String :=
  match fs c.filename with
  | none => .error NoCursorErr
  | some dat => .ok dat

/-- JSON string escaping for `encoding/json` (quote and backslash; the
cursors exercised here contain neither). -/
def jsonEscape (s : String) : String :=
  String.mk
    ((s.data.map (fun c =>
      if c = '"' then ['\\', '"']
      else if c = '\\' then ['\\', '\\']
      else [c])).flatten)

/-- `json.Marshal(cs{Cursor: cursor})`: the checkpoint record wire format. -/
def jsonMarshalCs (cursor : String) : String :=
  "\x7b\"cursor\":\"" ++ jsonEscape cursor ++ "\"\x7d"

/-- One Kafka topic: partition logs (ordered message values, offset =
position) plus the replication factor it was created with. -/
structure KafkaTopic where
  partitions : List (List String)
  replicationFactor : Nat
deriving DecidableEq

/-- The durable state of the Kafka cluster seen by the checkpointer:
broker count and topics by name. -/
structure KafkaCluster where
  brokers : Nat
  topics : String → Option KafkaTopic

/-- Metadata lookup of a topic. -/
def KafkaCluster.getTopic (st : KafkaCluster) (name : String) : Option KafkaTopic :=
  st.topics name

/-- Create or replace a topic. -/
def KafkaCluster.setTopic (st : KafkaCluster) (name : String) (t : KafkaTopic) :
    KafkaCluster :=
  { st with topics := fun n => if n = name then some t else st.topics n }

/-- The log of one partition (`none` when topic or partition is missing). -/
def KafkaCluster.partitionLog (st : KafkaCluster) (topic : String) (p : Nat) :
    Option (List String) :=
  match st.getTopic topic with
  | some t => t.partitions.get? p
  | none => none

/-- `kafkaCheckpointer` (consumer config and producer handle carry no state
relevant to the claims). -/
structure kafkaCheckpointer where
  topic : String
  partition : Nat

/-- `kafkaCheckpointer.Save`: marshal `cs{Cursor: cursor}` and produce it on
the cursor topic/partition (fire-and-forget; append to the partition log). -/
def kafkaCheckpointer.Save (c : kafkaCheckpointer) (st : KafkaCluster)
    (cursor : String) : KafkaCluster :=
  let v := jsonMarshalCs cursor
  match st.getTopic c.topic with
  | some t =>
      st.setTopic c.topic
        { t with
          partitions :=
            t.partitions.mapIdx (fun i log => if i = c.partition then log ++ [v] else log) }
  | none => st

/-- `createKafkaCursorTopic`: 10 partitions, replication factor 3 capped at
the number of available brokers. -/
def createKafkaCursorTopic (st : KafkaCluster) (cursorTopic : String)
    (maxAvailableBrokers : Nat) : KafkaCluster :=
  let numParts := 10
  let replicationFactor := if 3 > maxAvailableBrokers then maxAvailableBrokers else 3
  st.setTopic cursorTopic
    { partitions := List.replicate numParts [], replicationFactor := replicationFactor }

/-- The backward scan of `kafkaCheckpointer.Load`: from offset `high - 1`
down to `low = 0`, poll the message at the assigned offset and return its
value as soon as one is found. -/
def backwardScan (log : List String) : Nat → Option String
  | 0 => none
  | i + 1 =>
    match log.get? i with
    | some v => some v
    | none => backwardScan log i

/-- The tail of `kafkaCheckpointer.Load` after the metadata check: query the
`[low, high)` watermarks of the cursor partition (here `low = 0`,
`high = log length`), scan backward, and — exactly as the source stands —
return `string(event.Value)` without unmarshalling the checkpoint record. -/
def kafkaCheckpointer.scanPartition (c : kafkaCheckpointer) (st : KafkaCluster) :
    Except CpErr String :=
  match st.partitionLog c.topic c.partition with
  | none => .error (.generic "getting low/high")
  | some log =>
    match backwardScan log log.length with
    | some v => .ok v
    | none => .error NoCursorErr

/-- `kafkaCheckpointer.Load`: fetch topic metadata; if the cursor topic has
no partitions yet, create it (`createKafkaCursorTopic`), then locate the
most recent checkpoint message by the backward watermark scan.  Returns the
possibly-updated cluster along with the result. -/
def kafkaCheckpointer.Load (c : kafkaCheckpointer) (st : KafkaCluster) :
    KafkaCluster × Except CpErr String :=
  let parts :=
    match st.getTopic c.topic with
    | some t => t.partitions.length
    | none => 0
  if parts = 0 then
    let st2 := createKafkaCursorTopic st c.topic st.brokers
    (st2, c.scanPartition st2)
  else if parts - 1 < c.partition then
    (st, .error (.generic "requested cursor partition does not exist in cursor topic"))
  else
    (st, c.scanPartition st)

/-! ## The delivery pipeline loop (`App.Run`, `src/app.go`)

The `sender` implementation (`Send`, `Commit`, `CommitIfAfter`) is not under
`src/`; it is modelled from the spec: publishes are recorded in order,
`Commit` persists the cursor unconditionally, and `CommitIfAfter` persists
it only if the elapsed time since the last successful checkpoint exceeds the
configured minimum delay (time is a discrete clock supplied with each
incoming block). -/

/-- Modelled from the spec: the observable state of the message sink —
published events in order, persisted cursors in order, and the time of the
last successful checkpoint. -/
structure senderState where
  published : List KafkaMessage
  commits : List String
  lastCommit : Option Nat

/-- Modelled from the spec: `s.Send(msg)` publishes one event. -/
def sender.Send (s : senderState) (msg : KafkaMessage) : senderState :=
  { s with published := s.published ++ [msg] }

/-- Modelled from the spec: `s.Commit(ctx, cursor)` persists the cursor
unconditionally ("forced commit"). -/
def sender.Commit (s : senderState) (now : Nat) (cursor : String) : senderState :=
  { s with commits := s.commits ++ [cursor], lastCommit := some now }

/-- Modelled from the spec: `s.CommitIfAfter(ctx, cursor, delay)` persists
the cursor only if the elapsed time since the last successful checkpoint
exceeds `delay` (a first-ever checkpoint is always written). -/
def sender.CommitIfAfter (s : senderState) (now : Nat) (cursor : String)
    (delay : Nat) : senderState :=
  match s.lastCommit with
  | none => sender.Commit s now cursor
  | some t => if now - t > delay then sender.Commit s now cursor else s

/-- One received stream message: the decoded block, its raw step, its opaque
cursor, the clock at the end of the iteration, and the value the
termination probe `a.IsTerminating()` yields in this iteration. -/
structure StreamMsg where
  Cursor : String
  blk : Block
  Step : String
  arrival : Nat
  terminating : Bool

/-- The `Adapter` interface method used by `App.Run`
(`Adapt(blk, step) -> ([]*kafka.Message, error)`). -/
def AdaptFn : Type := Block → String → Except String (List KafkaMessage)

/-- The block loop of `App.Run`: receive, adapt, publish every message,
then either force-commit and return (termination observed) or
commit-if-after and continue.  Stream end (`io.EOF`) returns cleanly. -/
def runLoop (adaptF : AdaptFn) (delay : Nat) :
    List StreamMsg → senderState → Except String senderState
  | [], s => .ok s
  | msg :: rest, s =>
    match adaptF msg.blk msg.Step with
    | .error e => .error ("transform to kafka message: " ++ e)
    | .ok kafkaMsgs =>
      let s1 := kafkaMsgs.foldl sender.Send s
      if msg.terminating then
        .ok (sender.Commit s1 msg.arrival msg.Cursor)
      else
        runLoop adaptF delay rest (sender.CommitIfAfter s1 msg.arrival msg.Cursor delay)

/-! ## Concrete fixtures -/

instance : Inhabited KafkaMessage :=
  ⟨{ Key := "", Headers := [], Value := .null, Topic := "" }⟩

/-- A constant string-valued CEL program. -/
def celConst (v : String) : CelProgString := fun _ => .ok v

/-- A constant string-array-valued CEL program. -/
def celKeys (ks : List String) : CelProgStringArray := fun _ => .ok ks

/-- A row decoder that decodes nothing and never fails. -/
def decodeNoop : List DBOp → Nat → List decodedDBOp × Option String :=
  fun _ _ => ([], none)

/-- A correlation extractor that finds no correlation and never fails. -/
def correlationNone : List ActionTrace → Except String (Option Correlation) :=
  fun _ => .ok none

/-- The matched action of the C1 scenario. -/
def actA : ActionTrace :=
  { Receiver := "rcv"
    Action := { Account := "acct", Name := "create", JsonData := "", Authorization := [] }
    Receipt := some { GlobalSequence := 7 }
    ExecutionIndex := 0
    FilteringMatched := true }

/-- Its transaction. -/
def trxA : TransactionTrace :=
  { Id := "trx-1"
    Receipt := { Status := "TRANSACTIONSTATUS_EXECUTED" }
    ActionTraces := [actA]
    DBOps := []
    hasBeenReverted := false }

/-- Block #100 of the C1 scenario. -/
def blkA : Block :=
  { Number := 100
    Id := "blk-100"
    transactionTraces := [trxA]
    MustTimeFormatted := "2021-01-01T00:00:00.0Z" }

/-- The generic adapter of the C1 scenario: event type `"Created"`, event
keys `["a", "a", "b"]`, no extensions, lenient decoding. -/
def adapterA : adapter :=
  { topic := "events"
    decodeDBOps := decodeNoop
    failOnUndecodableDBOP := false
    eventTypeProg := celConst "Created"
    eventKeyProg := celKeys ["a", "a", "b"]
    extensions := []
    headers := []
    getCorrelation := correlationNone }

/-! ## Helper lemmas about the adapter loops -/

/-- A message produced by the dedupe key loop is the message built for one
of the keys. -/
theorem keyLoop_eq_some (mk : String → KafkaMessage) :
    ∀ (keys seen : List String) (msg : KafkaMessage),
      keyLoop mk keys seen = some msg → ∃ k ∈ keys, msg = mk k
  | [], _, msg, h => by simp [keyLoop] at h
  | k :: rest, seen, msg, h => by
    rw [keyLoop] at h
    cases hc : seen.contains k with
    | true =>
      rw [hc] at h
      simp only [if_true] at h
      obtain ⟨k', hk', hmsg⟩ := keyLoop_eq_some mk rest seen msg h
      exact ⟨k', by simp [hk'], hmsg⟩
    | false =>
      rw [hc] at h
      simp only [Bool.false_eq_true, if_false, Option.some.injEq] at h
      exact ⟨k, by simp, h.symm⟩

/-- A message produced by the action loop comes from one matched action of
the list. -/
theorem actionsLoop_eq_some (m : adapter) (blk : Block) (rawStep step status : String)
    (trx : TransactionTrace) (correlation : Option Correlation) :
    ∀ (acts : List ActionTrace) (msg : KafkaMessage),
      m.actionsLoop blk rawStep step status trx correlation acts = .ok (some msg) →
      ∃ act ∈ acts, act.FilteringMatched = true ∧
        m.processAction blk rawStep step status trx correlation act = .ok (some msg)
  | [], msg, h => by simp [adapter.actionsLoop] at h
  | act :: rest, msg, h => by
    rw [adapter.actionsLoop] at h
    cases hm : act.FilteringMatched with
    | false =>
      rw [hm] at h
      simp only [Bool.not_false, if_true] at h
      obtain ⟨act', hin, hmat, hproc⟩ :=
        actionsLoop_eq_some m blk rawStep step status trx correlation rest msg h
      exact ⟨act', by simp [hin], hmat, hproc⟩
    | true =>
      rw [hm] at h
      simp only [Bool.not_true, Bool.false_eq_true, if_false] at h
      cases hp : m.processAction blk rawStep step status trx correlation act with
      | error e => simp [hp] at h
      | ok r =>
        cases r with
        | some msg' =>
          simp only [hp, Except.ok.injEq, Option.some.injEq] at h
          exact ⟨act, by simp, hm, by rw [hp, h]⟩
        | none =>
          simp only [hp] at h
          obtain ⟨act', hin, hmat, hproc⟩ :=
            actionsLoop_eq_some m blk rawStep step status trx correlation rest msg h
          exact ⟨act', by simp [hin], hmat, hproc⟩

/-- A message produced by the transaction loop comes from one matched
action of one transaction of the list, with the correlation that
`getCorrelation` yielded for that transaction. -/
theorem trxLoop_eq_some (m : adapter) (blk : Block) (rawStep step : String) :
    ∀ (trxs : List TransactionTrace) (msg : KafkaMessage),
      m.trxLoop blk rawStep step trxs = .ok (some msg) →
      ∃ trx ∈ trxs, ∃ correlation,
        m.getCorrelation trx.ActionTraces = .ok correlation ∧
        ∃ act ∈ trx.ActionTraces, act.FilteringMatched = true ∧
          m.processAction blk rawStep step (sanitizeStatus trx.Receipt.Status) trx
            correlation act = .ok (some msg)
  | [], msg, h => by simp [adapter.trxLoop] at h
  | trx :: rest, msg, h => by
    rw [adapter.trxLoop] at h
    cases hc : m.getCorrelation trx.ActionTraces with
    | error e => simp [hc] at h
    | ok correlation =>
      simp only [hc] at h
      cases ha : m.actionsLoop blk rawStep step (sanitizeStatus trx.Receipt.Status) trx
          correlation trx.ActionTraces with
      | error e => simp [ha] at h
      | ok r =>
        cases r with
        | some msg' =>
          simp only [ha, Except.ok.injEq, Option.some.injEq] at h
          obtain ⟨act, hin, hmat, hproc⟩ :=
            actionsLoop_eq_some m blk rawStep step (sanitizeStatus trx.Receipt.Status) trx
              correlation trx.ActionTraces msg' ha
          exact ⟨trx, by simp, correlation, hc, act, hin, hmat, by rw [hproc, h]⟩
        | none =>
          simp only [ha] at h
          obtain ⟨trx', hin, correlation', hc', rest'⟩ :=
            trxLoop_eq_some m blk rawStep step rest msg h
          exact ⟨trx', by simp [hin], correlation', hc', rest'⟩

/-- The action loop emits nothing when every action of the list is
unmatched. -/
theorem actionsLoop_all_unmatched (m : adapter) (blk : Block)
    (rawStep step status : String) (trx : TransactionTrace)
    (correlation : Option Correlation) :
    ∀ (acts : List ActionTrace),
      (∀ act ∈ acts, act.FilteringMatched = false) →
      m.actionsLoop blk rawStep step status trx correlation acts = .ok none
  | [], _ => by simp [adapter.actionsLoop]
  | act :: rest, hall => by
    have hm : act.FilteringMatched = false := hall act (by simp)
    rw [adapter.actionsLoop, hm]
    simp only [Bool.not_false, if_true]
    exact actionsLoop_all_unmatched m blk rawStep step status trx correlation rest
      (fun a ha => hall a (by simp [ha]))

/-- The transaction loop emits no message when every action of every
transaction is unmatched (it can still fail on correlation extraction). -/
theorem trxLoop_all_unmatched (m : adapter) (blk : Block) (rawStep step : String) :
    ∀ (trxs : List TransactionTrace),
      (∀ trx ∈ trxs, ∀ act ∈ trx.ActionTraces, act.FilteringMatched = false) →
      ∀ msg, m.trxLoop blk rawStep step trxs ≠ .ok (some msg)
  | [], _, msg => by simp [adapter.trxLoop]
  | trx :: rest, hall, msg => by
    cases hc : m.getCorrelation trx.ActionTraces with
    | error e => simp [adapter.trxLoop, hc]
    | ok correlation =>
      rw [adapter.trxLoop]
      simp only [hc]
      rw [actionsLoop_all_unmatched m blk rawStep step (sanitizeStatus trx.Receipt.Status)
        trx correlation trx.ActionTraces (hall trx (by simp))]
      exact trxLoop_all_unmatched m blk rawStep step rest
        (fun t ht a ha => hall t (by simp [ht]) a ha) msg

/-- The event record that `processDecoded` serializes for one action. -/
def builtEvent (blk : Block) (status step : String) (trx : TransactionTrace)
    (correlation : Option Correlation) (act : ActionTrace)
    (decodedDBOps : List decodedDBOp) : event :=
  { BlockNum := blk.Number
    BlockID := blk.Id
    Status := status
    Executed := !trx.HasBeenReverted
    Step := step
    Correlation := correlation
    TransactionID := trx.Id
    ActionInfo :=
      { Account := act.Account
        Receiver := act.Receiver
        Action := act.Name
        JSONData := if act.Action.JsonData ≠ "" then some act.Action.JsonData else none
        DBOps := decodedDBOps
        Authorization := act.Action.Authorization.map PermissionLevel.Authorization
        GlobalSequence :=
          match act.Receipt with
          | some r => r.GlobalSequence
          | none => 0 } }

/-- The exact shape of a message built by `processDecoded`: it is keyed by
one of the evaluated event keys, carries the adapter headers followed by
`ce_id` / `ce_type` / `ce_time` / `ce_blkstep` and the extension headers,
and its payload is the serialized built event. -/
theorem processDecoded_eq_some (m : adapter) (blk : Block) (rawStep step status : String)
    (trx : TransactionTrace) (correlation : Option Correlation) (act : ActionTrace)
    (ops : List decodedDBOp) (msg : KafkaMessage)
    (h : m.processDecoded blk rawStep step status trx correlation act ops = .ok (some msg)) :
    ∃ (eventType : String) (extensionsKV : List (String × String)) (k : String),
      msg =
        { Key := k
          Headers := m.headers ++
            [ { Key := "ce_id"
                Value := hashString (blk.Id ++ trx.Id ++
                  toString act.ExecutionIndex ++ rawStep ++ k) },
              { Key := "ce_type", Value := eventType },
              { Key := "ce_time", Value := blk.MustTimeFormatted },
              { Key := "ce_blkstep", Value := step } ] ++
            extensionsKV.map (fun p => { Key := p.1, Value := p.2 })
          Value := (builtEvent blk status step trx correlation act ops).JSON
          Topic := m.topic } := by
  simp only [adapter.processDecoded, NewActivation] at h
  cases ht : evalString m.eventTypeProg ⟨step, trx, act, ops⟩ with
  | error e => simp [ht] at h
  | ok eventType =>
    simp only [ht] at h
    cases hx : evalExtensions m.extensions ⟨step, trx, act, ops⟩ with
    | error e => simp [hx] at h
    | ok extensionsKV =>
      simp only [hx] at h
      cases hk : evalStringArray m.eventKeyProg ⟨step, trx, act, ops⟩ with
      | error e => simp [hk] at h
      | ok eventKeys =>
        simp only [hk, Except.ok.injEq] at h
        obtain ⟨k, hkin, hmsg⟩ := keyLoop_eq_some _ eventKeys [] msg h
        subst hmsg
        exact ⟨eventType, extensionsKV, k, rfl⟩

/-- C1: on block #100 with one matched action whose event-type expression
yields `"Created"` and whose event-key expression yields `["a", "a", "b"]`,
`adapter.adapt` emits exactly one message, keyed `"a"` — not one message per
distinct key (the key loop returns out of `adapt` at the first unseen key),
so the claimed two events `"a"` and `"b"` are not produced. -/
theorem adapt_emits_single_message_on_duplicate_keys :
    emittedKeys (adapterA.adapt blkA "STEP_NEW") = ["a"] ∧
    (emittedKeys (adapterA.adapt blkA "STEP_NEW")).length = 1 := by
  constructor <;> decide

/-- C2: every message emitted by the generic adapter originates in one
action whose `FilteringMatched` flag is true (via that transaction's
correlation), and a block in which every action is unmatched never yields a
message. -/
theorem adapt_events_come_only_from_matched_actions (m : adapter) (blk : Block)
    (rawStep : String) :
    (∀ msg, m.adapt blk rawStep = .ok (some msg) →
      ∃ trx ∈ blk.TransactionTraces, ∃ correlation,
        m.getCorrelation trx.ActionTraces = .ok correlation ∧
        ∃ act ∈ trx.ActionTraces, act.FilteringMatched = true ∧
          m.processAction blk rawStep (sanitizeStep rawStep)
            (sanitizeStatus trx.Receipt.Status) trx correlation act = .ok (some msg)) ∧
    ((∀ trx ∈ blk.TransactionTraces, ∀ act ∈ trx.ActionTraces,
        act.FilteringMatched = false) →
      ∀ msg, m.adapt blk rawStep ≠ .ok (some msg)) := by
  constructor
  · intro msg h
    exact trxLoop_eq_some m blk rawStep (sanitizeStep rawStep) blk.TransactionTraces msg h
  · intro hall msg
    exact trxLoop_all_unmatched m blk rawStep (sanitizeStep rawStep)
      blk.TransactionTraces hall msg

/-- The message the C1-scenario adapter emits. -/
def msgA : KafkaMessage :=
  match adapterA.adapt blkA "STEP_NEW" with
  | .ok (some msg) => msg
  | _ => default

/-- An unmatched action. -/
def actU : ActionTrace :=
  { Receiver := "rcv"
    Action := { Account := "acct", Name := "noop", JsonData := "", Authorization := [] }
    Receipt := none
    ExecutionIndex := 3
    FilteringMatched := false }

/-- A block whose only action is unmatched. -/
def blkU : Block :=
  { Number := 7
    Id := "blk-7"
    transactionTraces :=
      [{ Id := "trx-7"
         Receipt := { Status := "TRANSACTIONSTATUS_EXECUTED" }
         ActionTraces := [actU]
         DBOps := []
         hasBeenReverted := false }]
    MustTimeFormatted := "2021-01-01T00:00:00.0Z" }

/-- Witness for C2: the C1-scenario message does come from the matched
action, and the all-unmatched block emits nothing. -/
theorem adapt_events_come_only_from_matched_actions_witness :
    (∃ trx ∈ blkA.TransactionTraces, ∃ correlation,
        adapterA.getCorrelation trx.ActionTraces = .ok correlation ∧
        ∃ act ∈ trx.ActionTraces, act.FilteringMatched = true ∧
          adapterA.processAction blkA "STEP_NEW" (sanitizeStep "STEP_NEW")
            (sanitizeStatus trx.Receipt.Status) trx correlation act = .ok (some msgA)) ∧
    adapterA.adapt blkU "STEP_NEW" ≠ .ok (some msgA) := by
  constructor
  · exact (adapt_events_come_only_from_matched_actions adapterA blkA "STEP_NEW").1 msgA rfl
  · exact (adapt_events_come_only_from_matched_actions adapterA blkU "STEP_NEW").2
      (by decide) msgA

/-- C8: every serialized canonical event is a JSON object with exactly the
fields `block_num`, `block_id`, `status`, `executed`, `block_step`,
`correlation`, `trx_id` and the nested `act_info` object, whose fields are
exactly `account`, `receiver`, `action`, `global_seq`, `authorizations`,
`db_ops` (the decoded row mutations) and `json_data`. -/
theorem event_json_wire_format_fields (e : event) :
    (∃ fields, event.JSON e = Json.obj fields) ∧
    (event.JSON e).objFields =
      ["block_num", "block_id", "status", "executed", "block_step",
       "correlation", "trx_id", "act_info"] ∧
    (ActionInfo.toJson e.ActionInfo).objFields =
      ["account", "receiver", "action", "global_seq", "authorizations",
       "db_ops", "json_data"] := by
  exact ⟨⟨_, rfl⟩, rfl, rfl⟩

/-- A successful `processAction` is a successful `processDecoded` on
whatever operation list the row decoder returned. -/
theorem processAction_eq_some_exists_ops (m : adapter) (blk : Block)
    (rawStep step status : String) (trx : TransactionTrace)
    (correlation : Option Correlation) (act : ActionTrace) (msg : KafkaMessage)
    (h : m.processAction blk rawStep step status trx correlation act = .ok (some msg)) :
    ∃ ops, m.processDecoded blk rawStep step status trx correlation act ops =
      .ok (some msg) := by
  simp only [adapter.processAction] at h
  cases hd : (m.decodeDBOps (trx.DBOpsForAction act.ExecutionIndex) blk.Number).2 with
  | none =>
    simp only [hd] at h
    exact ⟨_, h⟩
  | some e =>
    simp only [hd] at h
    cases hf : m.failOnUndecodableDBOP with
    | true => simp [hf] at h
    | false =>
      simp only [hf, Bool.false_eq_true, if_false] at h
      exact ⟨_, h⟩

/-- C9: every message the adapter emits carries a `ce_id` header equal to
`hashString` — the base64-encoded SHA-256 digest — of the concatenation of
block id, transaction id, execution index, raw step and event key (the
adapter's own common headers being free of `ce_id`).  `hashString` is a
function of that concatenation, so identical inputs always yield the same
event id. -/
theorem emitted_ce_id_is_content_hash (m : adapter) (blk : Block) (rawStep : String)
    (msg : KafkaMessage)
    (hfresh : ∀ hd ∈ m.headers, hd.Key ≠ "ce_id")
    (h : m.adapt blk rawStep = .ok (some msg)) :
    ∃ trx ∈ blk.TransactionTraces, ∃ act ∈ trx.ActionTraces, ∃ eventKey,
      msg.Key = eventKey ∧
      msg.Headers.find? (fun hd => hd.Key == "ce_id") =
        some { Key := "ce_id"
               Value := hashString (blk.Id ++ trx.Id ++
                 toString act.ExecutionIndex ++ rawStep ++ eventKey) } := by
  obtain ⟨trx, htrx, correlation, hc, act, hact, hmat, hproc⟩ :=
    trxLoop_eq_some m blk rawStep (sanitizeStep rawStep) blk.TransactionTraces msg h
  obtain ⟨ops, hpd⟩ :=
    processAction_eq_some_exists_ops m blk rawStep (sanitizeStep rawStep)
      (sanitizeStatus trx.Receipt.Status) trx correlation act msg hproc
  obtain ⟨eventType, extensionsKV, k, hshape⟩ :=
    processDecoded_eq_some m blk rawStep (sanitizeStep rawStep)
      (sanitizeStatus trx.Receipt.Status) trx correlation act ops msg hpd
  refine ⟨trx, htrx, act, hact, k, by rw [hshape], ?_⟩
  rw [hshape]
  show (m.headers ++ _ ++ _).find? _ = _
  rw [List.find?_append, List.find?_append,
    List.find?_eq_none.mpr (fun hd hin => by simpa using hfresh hd hin)]
  rfl

/-- Witness for C9 on the C1 fixture block. -/
theorem emitted_ce_id_is_content_hash_witness :
    (∀ hd ∈ adapterA.headers, hd.Key ≠ "ce_id") ∧
    (∃ trx ∈ blkA.TransactionTraces, ∃ act ∈ trx.ActionTraces, ∃ eventKey,
      msgA.Key = eventKey ∧
      msgA.Headers.find? (fun hd => hd.Key == "ce_id") =
        some { Key := "ce_id"
               Value := hashString (blkA.Id ++ trx.Id ++
                 toString act.ExecutionIndex ++ "STEP_NEW" ++ eventKey) }) :=
  ⟨by decide, emitted_ce_id_is_content_hash adapterA blkA "STEP_NEW" msgA (by decide) rfl⟩

/-- When the block has a single transaction whose single action is matched
and correlation extraction succeeds, `adapt` is exactly the processing of
that one action. -/
theorem single_action_adapt_eq_processAction (m : adapter) (blk : Block)
    (rawStep : String) (trx : TransactionTrace) (act : ActionTrace)
    (co : Option Correlation)
    (hblk : blk.TransactionTraces = [trx])
    (hacts : trx.ActionTraces = [act])
    (hmat : act.FilteringMatched = true)
    (hcorr : m.getCorrelation trx.ActionTraces = .ok co) :
    m.adapt blk rawStep =
      m.processAction blk rawStep (sanitizeStep rawStep)
        (sanitizeStatus trx.Receipt.Status) trx co act := by
  show m.trxLoop blk rawStep (sanitizeStep rawStep) blk.TransactionTraces = _
  rw [hblk, adapter.trxLoop]
  simp only [hcorr]
  rw [hacts, adapter.actionsLoop, hmat]
  simp only [Bool.not_true, Bool.false_eq_true, if_false]
  cases hp : m.processAction blk rawStep (sanitizeStep rawStep)
      (sanitizeStatus trx.Receipt.Status) trx co act with
  | error e => simp
  | ok r =>
    cases r with
    | some msg => simp
    | none => simp [adapter.actionsLoop, adapter.trxLoop]

/-- C5: when the row decoder fails on the only matched action of the block,
strict mode (`failOnUndecodableDBOP`) aborts the whole block with that error
and no event is emitted; lenient mode continues processing the action with
exactly the (undecoded) mutation list the decoder returned. -/
theorem strict_decode_error_aborts_block (m : adapter) (blk : Block)
    (rawStep : String) (trx : TransactionTrace) (act : ActionTrace)
    (co : Option Correlation) (ops : List decodedDBOp) (e : String)
    (hblk : blk.TransactionTraces = [trx])
    (hacts : trx.ActionTraces = [act])
    (hmat : act.FilteringMatched = true)
    (hcorr : m.getCorrelation trx.ActionTraces = .ok co)
    (hdec : m.decodeDBOps (trx.DBOpsForAction act.ExecutionIndex) blk.Number =
      (ops, some e)) :
    (m.failOnUndecodableDBOP = true →
      m.adapt blk rawStep = .error e ∧ emittedKeys (m.adapt blk rawStep) = []) ∧
    (m.failOnUndecodableDBOP = false →
      m.adapt blk rawStep =
        m.processDecoded blk rawStep (sanitizeStep rawStep)
          (sanitizeStatus trx.Receipt.Status) trx co act ops) := by
  have hPA := single_action_adapt_eq_processAction m blk rawStep trx act co
    hblk hacts hmat hcorr
  constructor
  · intro hf
    have : m.adapt blk rawStep = .error e := by
      rw [hPA]
      simp only [adapter.processAction, hdec, hf, if_true]
    exact ⟨this, by rw [this]; rfl⟩
  · intro hf
    rw [hPA]
    simp only [adapter.processAction, hdec, hf, Bool.false_eq_true, if_false]

/-- A strict adapter over the C1 fixtures whose decoder always fails. -/
def adapterS : adapter :=
  { adapterA with
    failOnUndecodableDBOP := true
    decodeDBOps := fun _ _ => ([], some "cannot decode dbops") }

/-- The same failing decoder with strict mode off. -/
def adapterL : adapter :=
  { adapterS with failOnUndecodableDBOP := false }

/-- Witness for C5: the strict adapter aborts block #100 with the decoder
error (emitting nothing), and the lenient one continues with the undecoded
mutations. -/
theorem strict_decode_error_aborts_block_witness :
    (adapterS.adapt blkA "STEP_NEW" = .error "cannot decode dbops" ∧
      emittedKeys (adapterS.adapt blkA "STEP_NEW") = []) ∧
    adapterL.adapt blkA "STEP_NEW" =
      adapterL.processDecoded blkA "STEP_NEW" (sanitizeStep "STEP_NEW")
        (sanitizeStatus trxA.Receipt.Status) trxA none actA [] :=
  ⟨(strict_decode_error_aborts_block adapterS blkA "STEP_NEW" trxA actA none []
      "cannot decode dbops" rfl rfl rfl rfl rfl).1 rfl,
   (strict_decode_error_aborts_block adapterL blkA "STEP_NEW" trxA actA none []
      "cannot decode dbops" rfl rfl rfl rfl rfl).2 rfl⟩

/-- C10: a matched action whose trace has no receipt is still processed —
the adapter emits its event — and the serialized payload is the built event
whose `global_seq` is `0`. -/
theorem receiptless_action_emits_with_global_seq_zero (m : adapter) (blk : Block)
    (rawStep : String) (trx : TransactionTrace) (act : ActionTrace)
    (co : Option Correlation) (ops : List decodedDBOp) (ty : String)
    (extKV : List (String × String)) (k : String) (ks : List String)
    (hblk : blk.TransactionTraces = [trx])
    (hacts : trx.ActionTraces = [act])
    (hmat : act.FilteringMatched = true)
    (hrec : act.Receipt = none)
    (hcorr : m.getCorrelation trx.ActionTraces = .ok co)
    (hdec : m.decodeDBOps (trx.DBOpsForAction act.ExecutionIndex) blk.Number =
      (ops, none))
    (hty : evalString m.eventTypeProg
      ⟨sanitizeStep rawStep, trx, act, ops⟩ = .ok ty)
    (hext : evalExtensions m.extensions
      ⟨sanitizeStep rawStep, trx, act, ops⟩ = .ok extKV)
    (hkeys : evalStringArray m.eventKeyProg
      ⟨sanitizeStep rawStep, trx, act, ops⟩ = .ok (k :: ks)) :
    ∃ msg, m.adapt blk rawStep = .ok (some msg) ∧
      msg.Value = (builtEvent blk (sanitizeStatus trx.Receipt.Status)
        (sanitizeStep rawStep) trx co act ops).JSON ∧
      (builtEvent blk (sanitizeStatus trx.Receipt.Status)
        (sanitizeStep rawStep) trx co act ops).ActionInfo.GlobalSequence = 0 := by
  have hPA := single_action_adapt_eq_processAction m blk rawStep trx act co
    hblk hacts hmat hcorr
  have hPD : m.processAction blk rawStep (sanitizeStep rawStep)
      (sanitizeStatus trx.Receipt.Status) trx co act =
      m.processDecoded blk rawStep (sanitizeStep rawStep)
        (sanitizeStatus trx.Receipt.Status) trx co act ops := by
    simp only [adapter.processAction, hdec]
  have hsome : ∃ msg, m.processDecoded blk rawStep (sanitizeStep rawStep)
      (sanitizeStatus trx.Receipt.Status) trx co act ops = .ok (some msg) := by
    simp only [adapter.processDecoded, NewActivation, hty, hext, hkeys, keyLoop]
    exact ⟨_, rfl⟩
  obtain ⟨msg, hmsg⟩ := hsome
  obtain ⟨ty', extKV', k', hshape⟩ :=
    processDecoded_eq_some m blk rawStep (sanitizeStep rawStep)
      (sanitizeStatus trx.Receipt.Status) trx co act ops msg hmsg
  refine ⟨msg, by rw [hPA, hPD, hmsg], by rw [hshape], ?_⟩
  simp [builtEvent, hrec]

/-- A matched action with no receipt. -/
def actN : ActionTrace :=
  { Receiver := "rcv"
    Action := { Account := "acct", Name := "create", JsonData := "", Authorization := [] }
    Receipt := none
    ExecutionIndex := 0
    FilteringMatched := true }

/-- Its transaction. -/
def trxN : TransactionTrace :=
  { Id := "trx-2"
    Receipt := { Status := "TRANSACTIONSTATUS_EXECUTED" }
    ActionTraces := [actN]
    DBOps := []
    hasBeenReverted := false }

/-- Its block. -/
def blkN : Block :=
  { Number := 101
    Id := "blk-101"
    transactionTraces := [trxN]
    MustTimeFormatted := "2021-01-01T00:00:00.5Z" }

/-- Witness for C10 on a concrete receipt-less action. -/
theorem receiptless_action_emits_with_global_seq_zero_witness :
    ∃ msg, adapterA.adapt blkN "STEP_NEW" = .ok (some msg) ∧
      msg.Value = (builtEvent blkN (sanitizeStatus trxN.Receipt.Status)
        (sanitizeStep "STEP_NEW") trxN none actN []).JSON ∧
      (builtEvent blkN (sanitizeStatus trxN.Receipt.Status)
        (sanitizeStep "STEP_NEW") trxN none actN []).ActionInfo.GlobalSequence = 0 :=
  receiptless_action_emits_with_global_seq_zero adapterA blkN "STEP_NEW" trxN actN
    none [] "Created" [] "a" ["a", "b"] rfl rfl rfl rfl rfl rfl rfl rfl rfl

/-! ## Checkpoint-store theorems -/

/-- The cursor-topic checkpointer used in the concrete checkpoint runs. -/
def cpK : kafkaCheckpointer := { topic := "dkafka-cursor", partition := 0 }

/-- A cluster whose cursor topic exists with one empty partition. -/
def clusterE : KafkaCluster :=
  { brokers := 3
    topics := fun n =>
      if n = "dkafka-cursor" then some { partitions := [[]], replicationFactor := 1 }
      else none }

/-- A cluster with a single broker and no topics. -/
def cluster0 : KafkaCluster := { brokers := 1, topics := fun _ => none }

/-- An empty filesystem. -/
def fsEmpty : FileSystem := fun _ => none

/-- C3: the file-backed store round-trips every cursor, but the bus-backed
store does not — `Save("abc")` followed by `Load()` yields the raw
checkpoint record `{"cursor":"abc"}` because `Load` returns the message
bytes without unmarshalling what `Save` marshalled. -/
theorem checkpoint_save_load_roundtrip :
    (∀ (c : localFileCheckpointer) (fs : FileSystem) (cursor : String),
        c.Load (c.Save fs cursor) = .ok cursor) ∧
    (cpK.Load (cpK.Save clusterE "abc")).2 = .ok "\x7b\"cursor\":\"abc\"\x7d" ∧
    ("\x7b\"cursor\":\"abc\"\x7d" : String) ≠ "abc" := by
  refine ⟨fun c fs cursor => ?_, by rfl, by decide⟩
  simp [localFileCheckpointer.Load, localFileCheckpointer.Save]

/-- Elements of a replicated list. -/
theorem get?_replicate_lt {α : Type} (a : α) :
    ∀ (n i : Nat), i < n → (List.replicate n a).get? i = some a
  | 0, i, h => absurd h (by omega)
  | n + 1, 0, _ => rfl
  | n + 1, i + 1, h => by
    simpa [List.replicate] using get?_replicate_lt a n i (by omega)

/-- C4: `Load()` with no prior checkpoint yields the distinguished
`NoCursorErr`, never a generic error — for the file backend when the file
does not exist, and for the bus backend both when the cursor topic is
missing (in which case the topic is created with 10 partitions and a
replication factor of `min 3 brokers`) and when the backward watermark scan
of an existing empty partition finds no message. -/
theorem load_cold_start_returns_no_cursor :
    (∀ (c : localFileCheckpointer) (fs : FileSystem),
        fs c.filename = none → c.Load fs = .error NoCursorErr) ∧
    (∀ (c : kafkaCheckpointer) (st : KafkaCluster),
        st.getTopic c.topic = none → c.partition < 10 →
        (c.Load st).2 = .error NoCursorErr ∧
        (c.Load st).1.getTopic c.topic =
          some { partitions := List.replicate 10 []
                 replicationFactor := min 3 st.brokers }) ∧
    (∀ (c : kafkaCheckpointer) (st : KafkaCluster) (t : KafkaTopic),
        st.getTopic c.topic = some t → t.partitions.get? c.partition = some [] →
        (c.Load st).2 = .error NoCursorErr) := by
  refine ⟨fun c fs h => by simp [localFileCheckpointer.Load, h], ?_, ?_⟩
  · intro c st h hp
    have hload : c.Load st =
        (createKafkaCursorTopic st c.topic st.brokers,
         c.scanPartition (createKafkaCursorTopic st c.topic st.brokers)) := by
      simp [kafkaCheckpointer.Load, h]
    have hget : (createKafkaCursorTopic st c.topic st.brokers).getTopic c.topic =
        some { partitions := List.replicate 10 []
               replicationFactor := if 3 > st.brokers then st.brokers else 3 } := by
      simp [createKafkaCursorTopic, KafkaCluster.setTopic, KafkaCluster.getTopic]
    have hscan : c.scanPartition (createKafkaCursorTopic st c.topic st.brokers) =
        .error NoCursorErr := by
      simp only [kafkaCheckpointer.scanPartition, KafkaCluster.partitionLog, hget,
        get?_replicate_lt ([] : List String) 10 c.partition hp]
      rfl
    have hmin : (if 3 > st.brokers then st.brokers else 3) = min 3 st.brokers := by
      by_cases h3 : 3 > st.brokers
      · rw [if_pos h3, Nat.min_eq_right (by omega)]
      · rw [if_neg h3, Nat.min_eq_left (by omega)]
    rw [hload]
    exact ⟨hscan, by rw [hget, hmin]⟩
  · intro c st t h hlog
    have hlt : c.partition < t.partitions.length := by
      by_contra hge
      rw [List.get?_eq_none.mpr (by omega)] at hlog
      cases hlog
    simp only [kafkaCheckpointer.Load, h]
    rw [if_neg (by omega), if_neg (by omega)]
    simp only [kafkaCheckpointer.scanPartition, KafkaCluster.partitionLog, h, hlog]
    rfl

/-- Witness for C4: a missing state file, a one-broker cluster without the
cursor topic, and the empty-partition cluster. -/
theorem load_cold_start_returns_no_cursor_witness :
    ((⟨"state.txt"⟩ : localFileCheckpointer).Load fsEmpty = .error NoCursorErr) ∧
    ((cpK.Load cluster0).2 = .error NoCursorErr ∧
      (cpK.Load cluster0).1.getTopic cpK.topic =
        some { partitions := List.replicate 10 []
               replicationFactor := min 3 cluster0.brokers }) ∧
    (cpK.Load clusterE).2 = .error NoCursorErr :=
  ⟨load_cold_start_returns_no_cursor.1 ⟨"state.txt"⟩ fsEmpty rfl,
   load_cold_start_returns_no_cursor.2.1 cpK cluster0 rfl (by decide),
   load_cold_start_returns_no_cursor.2.2 cpK clusterE
     { partitions := [[]], replicationFactor := 1 } rfl rfl⟩

/-! ## Delivery-pipeline theorems -/

/-- Publishing does not checkpoint: `Send` leaves the commit list alone. -/
theorem foldl_send_commits :
    ∀ (l : List KafkaMessage) (s : senderState), (l.foldl sender.Send s).commits = s.commits
  | [], _ => rfl
  | m :: l, s => by
    rw [List.foldl_cons, foldl_send_commits l]
    rfl

/-- Publishing does not touch the last-checkpoint clock either. -/
theorem foldl_send_lastCommit :
    ∀ (l : List KafkaMessage) (s : senderState),
      (l.foldl sender.Send s).lastCommit = s.lastCommit
  | [], _ => rfl
  | m :: l, s => by
    rw [List.foldl_cons, foldl_send_lastCommit l]
    rfl

/-- C6: when the termination signal has been observed at the end of a block
iteration, the pipeline finishes that block's publishes, performs exactly
one unconditional cursor commit (no delay window involved), and returns
without pulling any further block — the result does not depend on the
remaining stream. -/
theorem termination_forces_one_commit_and_stops (adaptF : AdaptFn) (delay : Nat)
    (msg : StreamMsg) (rest : List StreamMsg) (s : senderState)
    (out : List KafkaMessage)
    (hterm : msg.terminating = true)
    (hadapt : adaptF msg.blk msg.Step = .ok out) :
    runLoop adaptF delay (msg :: rest) s =
      .ok (sender.Commit (out.foldl sender.Send s) msg.arrival msg.Cursor) ∧
    (sender.Commit (out.foldl sender.Send s) msg.arrival msg.Cursor).commits =
      s.commits ++ [msg.Cursor] := by
  constructor
  · rw [runLoop]
    simp only [hadapt, hterm, if_true]
  · rw [sender.Commit, foldl_send_commits]

/-- Witness for C6: a terminating iteration with a no-op adapter commits
once and ignores the rest of the stream. -/
theorem termination_forces_one_commit_and_stops_witness :
    runLoop (fun _ _ => .ok []) 30
        [{ Cursor := "c1", blk := blkA, Step := "STEP_NEW", arrival := 5,
           terminating := true },
         { Cursor := "c2", blk := blkN, Step := "STEP_NEW", arrival := 6,
           terminating := false }]
        { published := [], commits := [], lastCommit := none } =
      .ok (sender.Commit (([] : List KafkaMessage).foldl sender.Send
        { published := [], commits := [], lastCommit := none }) 5 "c1") ∧
    (sender.Commit (([] : List KafkaMessage).foldl sender.Send
      { published := [], commits := [], lastCommit := none }) 5 "c1").commits =
      ([] : List String) ++ ["c1"] :=
  termination_forces_one_commit_and_stops (fun _ _ => .ok []) 30
    { Cursor := "c1", blk := blkA, Step := "STEP_NEW", arrival := 5,
      terminating := true }
    [{ Cursor := "c2", blk := blkN, Step := "STEP_NEW", arrival := 6,
       terminating := false }]
    { published := [], commits := [], lastCommit := none } [] rfl rfl

/-- The sender state at pipeline start. -/
def freshSender : senderState :=
  { published := [], commits := [], lastCommit := none }

/-- C7: under commit-if-after with minimum delay `D`, the cursor is persisted
at the end of an iteration iff the elapsed time since the last successful
checkpoint exceeds `D`; consequently two publish cycles write one checkpoint
when separated by at most `D` and two when separated by more than `D`. -/
theorem commit_if_after_policy :
    (∀ (s : senderState) (now : Nat) (cursor : String) (D t : Nat),
        s.lastCommit = some t →
        ((sender.CommitIfAfter s now cursor D).commits = s.commits ++ [cursor] ↔
          now - t > D) ∧
        (¬ now - t > D → sender.CommitIfAfter s now cursor D = s)) ∧
    (∀ (adaptF : AdaptFn) (D : Nat) (m1 m2 : StreamMsg)
        (out1 out2 : List KafkaMessage),
        m1.terminating = false → m2.terminating = false →
        adaptF m1.blk m1.Step = .ok out1 → adaptF m2.blk m2.Step = .ok out2 →
        ∃ s, runLoop adaptF D [m1, m2] freshSender = .ok s ∧
          s.commits =
            if m2.arrival - m1.arrival > D then [m1.Cursor, m2.Cursor]
            else [m1.Cursor]) := by
  constructor
  · intro s now cursor D t h
    have hunfold : sender.CommitIfAfter s now cursor D =
        if now - t > D then sender.Commit s now cursor else s := by
      simp only [sender.CommitIfAfter, h]
    by_cases hgt : now - t > D
    · rw [hunfold, if_pos hgt]
      exact ⟨iff_of_true (by simp [sender.Commit]) hgt, fun hng => absurd hgt hng⟩
    · rw [hunfold, if_neg hgt]
      refine ⟨iff_of_false (fun habs => ?_) hgt, fun _ => rfl⟩
      have := congrArg List.length habs
      simp at this
  · intro adaptF D m1 m2 out1 out2 h1 h2 ha1 ha2
    have hs1 : sender.CommitIfAfter (out1.foldl sender.Send freshSender)
        m1.arrival m1.Cursor D =
        sender.Commit (out1.foldl sender.Send freshSender) m1.arrival m1.Cursor := by
      simp only [sender.CommitIfAfter, foldl_send_lastCommit, freshSender]
    have hs1commits :
        (sender.Commit (out1.foldl sender.Send freshSender) m1.arrival m1.Cursor).commits =
          [m1.Cursor] := by
      simp [sender.Commit, foldl_send_commits, freshSender]
    have hs1last :
        (sender.Commit (out1.foldl sender.Send freshSender) m1.arrival m1.Cursor).lastCommit =
          some m1.arrival := by
      simp [sender.Commit]
    have hrun : runLoop adaptF D [m1, m2] freshSender =
        .ok (sender.CommitIfAfter
          (out2.foldl sender.Send
            (sender.Commit (out1.foldl sender.Send freshSender) m1.arrival m1.Cursor))
          m2.arrival m2.Cursor D) := by
      rw [runLoop]
      simp only [ha1, h1, Bool.false_eq_true, if_false]
      rw [hs1, runLoop]
      simp only [ha2, h2, Bool.false_eq_true, if_false]
      rw [runLoop]
    refine ⟨_, hrun, ?_⟩
    have hlast2 : (out2.foldl sender.Send
        (sender.Commit (out1.foldl sender.Send freshSender)
          m1.arrival m1.Cursor)).lastCommit = some m1.arrival := by
      rw [foldl_send_lastCommit, hs1last]
    have hcommits2 : (out2.foldl sender.Send
        (sender.Commit (out1.foldl sender.Send freshSender)
          m1.arrival m1.Cursor)).commits = [m1.Cursor] := by
      rw [foldl_send_commits, hs1commits]
    by_cases hgt : m2.arrival - m1.arrival > D
    · rw [if_pos hgt]
      have hunfold2 : sender.CommitIfAfter
          (out2.foldl sender.Send
            (sender.Commit (out1.foldl sender.Send freshSender) m1.arrival m1.Cursor))
          m2.arrival m2.Cursor D =
          sender.Commit
            (out2.foldl sender.Send
              (sender.Commit (out1.foldl sender.Send freshSender) m1.arrival m1.Cursor))
            m2.arrival m2.Cursor := by
        simp only [sender.CommitIfAfter, hlast2, if_pos hgt]
      rw [hunfold2]
      show (out2.foldl sender.Send
        (sender.Commit (out1.foldl sender.Send freshSender)
          m1.arrival m1.Cursor)).commits ++ [m2.Cursor] = _
      rw [hcommits2]
      rfl
    · rw [if_neg hgt]
      have hunfold2 : sender.CommitIfAfter
          (out2.foldl sender.Send
            (sender.Commit (out1.foldl sender.Send freshSender) m1.arrival m1.Cursor))
          m2.arrival m2.Cursor D =
          out2.foldl sender.Send
            (sender.Commit (out1.foldl sender.Send freshSender) m1.arrival m1.Cursor) := by
        simp only [sender.CommitIfAfter, hlast2, if_neg hgt]
      rw [hunfold2]
      exact hcommits2

/-- Witness for C7: with a no-op adapter and cycles at times 0 and 5, a
minimum delay of 10 yields one checkpoint write and a minimum delay of 3
yields two; and on a state last checkpointed at time 0, a call at time 5
with delay 10 does not persist. -/
theorem commit_if_after_policy_witness :
    (∃ s, runLoop (fun _ _ => .ok []) 10
        [{ Cursor := "c1", blk := blkA, Step := "STEP_NEW", arrival := 0,
           terminating := false },
         { Cursor := "c2", blk := blkN, Step := "STEP_NEW", arrival := 5,
           terminating := false }] freshSender = .ok s ∧ s.commits = ["c1"]) ∧
    (∃ s, runLoop (fun _ _ => .ok []) 3
        [{ Cursor := "c1", blk := blkA, Step := "STEP_NEW", arrival := 0,
           terminating := false },
         { Cursor := "c2", blk := blkN, Step := "STEP_NEW", arrival := 5,
           terminating := false }] freshSender = .ok s ∧ s.commits = ["c1", "c2"]) ∧
    sender.CommitIfAfter { published := [], commits := ["c0"], lastCommit := some 0 }
      5 "c1" 10 =
      { published := [], commits := ["c0"], lastCommit := some 0 } := by
  refine ⟨?_, ?_, ?_⟩
  · obtain ⟨s, hs, hc⟩ := commit_if_after_policy.2 (fun _ _ => .ok []) 10
      { Cursor := "c1", blk := blkA, Step := "STEP_NEW", arrival := 0,
        terminating := false }
      { Cursor := "c2", blk := blkN, Step := "STEP_NEW", arrival := 5,
        terminating := false } [] [] rfl rfl rfl rfl
    exact ⟨s, hs, by simpa using hc⟩
  · obtain ⟨s, hs, hc⟩ := commit_if_after_policy.2 (fun _ _ => .ok []) 3
      { Cursor := "c1", blk := blkA, Step := "STEP_NEW", arrival := 0,
        terminating := false }
      { Cursor := "c2", blk := blkN, Step := "STEP_NEW", arrival := 5,
        terminating := false } [] [] rfl rfl rfl rfl
    exact ⟨s, hs, by simpa using hc⟩
  · exact (commit_if_after_policy.1
      { published := [], commits := ["c0"], lastCommit := some 0 }
      5 "c1" 10 0 rfl).2 (by omega)

/-! ## Validation of the embedded hash against published vectors -/

/-- The SHA-256 digest of the empty message is the FIPS 180-4 value
`e3b0c442 98fc1c14 9afbf4c8 996fb924 27ae41e4 649b934c a495991b 7852b855`,
whose standard base64 encoding is the string below; this pins the embedded
`hashString` to the real algorithm. -/
theorem hashString_empty_fips_vector :
    hashString "" = "47DEQpj8HBSa+/TImW+5JCeuQeRkm5NMpJWZG3hSuFU=" := by
  decide

/-- The RFC 4648 examples for the standard base64 alphabet and padding. -/
theorem base64_rfc4648_vectors :
    base64Encode (strBytes "Man") = "TWFu" ∧
    base64Encode (strBytes "Ma") = "TWE=" ∧
    base64Encode (strBytes "M") = "TQ==" := by
  decide

end Dkafka
